import Mathlib

/-!
Verification development for the `lib-common` helper library
(modules/common/clusterrole, modules/common/object, modules/common/webhook).

The Go source is shallowly embedded: pure fragments become Lean functions,
and the external Kubernetes client is modelled as an explicit parameter
(a fetch function, or the outcome the client reported for a call).
Go `map[string]string` values are modelled as association lists whose
observable behaviour is the first-match lookup `StrMap.get`.
-/

namespace LibCommon

/-! ## String maps (`map[string]string`) -/

/-- Go `map[string]string`, modelled as an association list; lookup is
first-match (`StrMap.get`). -/
abbrev StrMap := List (String × String)

/-- Map lookup `m[k]`, returning `none` when the key is absent. -/
def StrMap.get (m : StrMap) (k : String) : Option String :=
  (m.find? (fun p => p.1 == k)).map (fun p => p.2)

/-- Modelled from the spec: `util.MergeStringMaps` (package
`modules/common/util`, whose source is not part of this repository snapshot)
merges the base map with the extra map, and the spec's merge is
"merged, desired wins on key conflict", the extra (desired) map winning.
The result maps `k` to the extra value when present, else the base value. -/
def MergeStringMaps (base extra : StrMap) : StrMap :=
  extra ++ base.filter (fun p => (StrMap.get extra p.1).isNone)

/-! ## ClusterRole create-or-patch mutation (clusterrole.go lines 46-84) -/

/-- Embeds `rbacv1.PolicyRule` (only identity matters to the embedding). -/
structure PolicyRule where
  apiGroups : List String
  resources : List String
  verbs : List String
deriving DecidableEq, Repr

/-- The fields of an `rbacv1.ClusterRole` that the mutation function
reads and writes: labels, annotations and rules. -/
structure ClusterRoleObj where
  labels : StrMap
  annotations : StrMap
  rules : List PolicyRule
deriving DecidableEq, Repr

/-- The mutate closure passed to `controllerutil.CreateOrPatch`
(clusterrole.go lines 57-67), applied to the live fetched object:
```
clusterrole.Labels = util.MergeStringMaps(clusterrole.Labels, r.clusterrole.Labels)
clusterrole.Annotations = util.MergeStringMaps(clusterrole.Labels, r.clusterrole.Annotations)
clusterrole.Rules = r.clusterrole.Rules
```
Note line 59 passes `clusterrole.Labels` — already overwritten by line 58 —
as the base of the annotation merge, not `clusterrole.Annotations`.
(The closure additionally sets a controller owner reference through the
external helper `controllerutil.SetControllerReference`; that touches only
`metadata.ownerReferences`, not the three fields modelled here.) -/
def mutateClusterRole (live desired : ClusterRoleObj) : ClusterRoleObj :=
  let labels := MergeStringMaps live.labels desired.labels
  let annotations := MergeStringMaps labels desired.annotations
  { labels := labels, annotations := annotations, rules := desired.rules }

/-- Live object of the C1 failing input: labels `{"a":"1"}`, annotations `{"b":"2"}`. -/
def c1Live : ClusterRoleObj :=
  { labels := [("a", "1")], annotations := [("b", "2")], rules := [] }

/-- Desired spec of the C1 failing input: no labels, no annotations, no rules. -/
def c1Desired : ClusterRoleObj :=
  { labels := [], annotations := [], rules := [] }

/-- Claim C1 (code bug): at the failing input — live labels `{"a":"1"}`,
live annotations `{"b":"2"}`, empty desired maps — the mutation merges
labels and replaces rules as claimed, but the resulting annotations are NOT
the merge of the existing annotations with the desired annotations: the key
`"b"` is dropped and the label key `"a"` leaks into the annotations, because
line 59 merges the updated labels (not the existing annotations) with the
desired annotations. -/
theorem mutateClusterRole_annotations_bug :
    (mutateClusterRole c1Live c1Desired).labels
        = MergeStringMaps c1Live.labels c1Desired.labels
      ∧ (mutateClusterRole c1Live c1Desired).rules = c1Desired.rules
      ∧ (mutateClusterRole c1Live c1Desired).annotations
          ≠ MergeStringMaps c1Live.annotations c1Desired.annotations
      ∧ StrMap.get (mutateClusterRole c1Live c1Desired).annotations "b" = none
      ∧ StrMap.get (mutateClusterRole c1Live c1Desired).annotations "a" = some "1" := by
  refine ⟨rfl, rfl, ?_, rfl, rfl⟩
  decide

/-! ## Unstructured values and nested-field accessors
(k8s.io/apimachinery `unstructured`, external collaborator of
`IsOwnerServiceReady`) -/

/-- A weakly-typed document value, as produced by JSON decoding into
`map[string]interface{}`: strings, int64 numbers, booleans, null, slices
and string-keyed maps. -/
inductive UVal where
  | str : String → UVal
  | int : Int → UVal
  | bool : Bool → UVal
  | null : UVal
  | list : List UVal → UVal
  | obj : List (String × UVal) → UVal

/-- A `map[string]interface{}` document root. -/
abbrev UObj := List (String × UVal)

/-- Map lookup in a weakly-typed document node. -/
def ulookup (m : UObj) (k : String) : Option UVal :=
  (m.find? (fun p => p.1 == k)).map (fun p => p.2)

/-- The `(value, found, err)` triple returned by the `unstructured.Nested*`
accessors; `val` holds the Go zero value on the failure paths. -/
structure NestedResult (α : Type) where
  val : α
  found : Bool
  err : Bool

/-- Embeds `unstructured.NestedFieldNoCopy(obj, fields...)`: walks `fields` from
`v`; a `nil` value stops with `(nil, false, nil)`, a missing key with
`(nil, false, nil)`, a non-map intermediate with an error, and exhausting
the fields returns the reached value as found. -/
def NestedFieldNoCopy (v : UVal) (fields : List String) : NestedResult (Option UVal) :=
  match fields with
  | [] => ⟨some v, true, false⟩
  | f :: rest =>
    match v with
    | .null => ⟨none, false, false⟩
    | .obj m =>
      match ulookup m f with
      | some v2 => NestedFieldNoCopy v2 rest
      | none => ⟨none, false, false⟩
    | _ => ⟨none, false, true⟩

/-- Embeds `unstructured.NestedSlice`: the nested field, required to be a slice
(a found non-slice is an error). -/
def NestedSlice (m : UObj) (fields : List String) : NestedResult (List UVal) :=
  match NestedFieldNoCopy (.obj m) fields with
  | ⟨some (.list xs), true, false⟩ => ⟨xs, true, false⟩
  | ⟨_, true, false⟩ => ⟨[], false, true⟩
  | ⟨_, found, err⟩ => ⟨[], found, err⟩

/-- Embeds `unstructured.NestedString`: the nested field, required to be a string. -/
def NestedString (m : UObj) (fields : List String) : NestedResult String :=
  match NestedFieldNoCopy (.obj m) fields with
  | ⟨some (.str s), true, false⟩ => ⟨s, true, false⟩
  | ⟨_, true, false⟩ => ⟨"", false, true⟩
  | ⟨_, found, err⟩ => ⟨"", found, err⟩

/-- Embeds `unstructured.NestedInt64`: the nested field, required to be an int64. -/
def NestedInt64 (m : UObj) (fields : List String) : NestedResult Int :=
  match NestedFieldNoCopy (.obj m) fields with
  | ⟨some (.int i), true, false⟩ => ⟨i, true, false⟩
  | ⟨_, true, false⟩ => ⟨0, false, true⟩
  | ⟨_, found, err⟩ => ⟨0, found, err⟩

/-! ## Group/version parsing (`schema.ParseGroupVersion`, external
collaborator) -/

/-- Embeds `schema.GroupVersion`. -/
structure GroupVersion where
  group : String
  version : String
deriving DecidableEq, Repr

/-- Index of the first occurrence of a character (`strings.Index`),
measured in characters; only meaningful when the character occurs. -/
def firstIndexOfChar (c : Char) : List Char → Nat
  | [] => 0
  | x :: xs => if x = c then 0 else firstIndexOfChar c xs + 1

/-- Embeds `schema.ParseGroupVersion`: empty or `"/"` parses as the empty
group/version; no slash means a bare version; one slash splits
group/version; more than one slash is an error. -/
def ParseGroupVersion (gv : String) : Except String GroupVersion :=
  if gv.length = 0 ∨ gv = "/" then .ok ⟨"", ""⟩
  else
    let cs := gv.toList
    match (cs.filter (fun c => c = '/')).length with
    | 0 => .ok ⟨"", gv⟩
    | 1 =>
      let i := firstIndexOfChar '/' cs
      .ok ⟨(cs.take i).asString, (cs.drop (i + 1)).asString⟩
    | _ => .error ("unexpected GroupVersion string: " ++ gv)

/-! ## Owner references and `IsOwnerServiceReady`
(clusterrole.go / object package, lines 222-326) -/

/-- Embeds `metav1.OwnerReference` (the fields the embedded code reads). -/
structure OwnerReference where
  apiVersion : String
  kind : String
  name : String
  uid : String
  controller : Option Bool
deriving DecidableEq, Repr

/-- The child object passed to `IsOwnerServiceReady`: its namespace and
its owner-reference list. -/
structure ChildObj where
  namespace_ : String
  ownerReferences : List OwnerReference
deriving DecidableEq, Repr

/-- Group/version/kind used to address the owner fetch. -/
structure GVK where
  group : String
  version : String
  kind : String
deriving DecidableEq, Repr

/-- What the external client's `Get` reported: the owner's document tree,
not-found, or some other failure. -/
inductive FetchResult where
  | ok : UObj → FetchResult
  | notFound : FetchResult
  | err : String → FetchResult

/-- The error component of `IsOwnerServiceReady`'s result. -/
inductive OwnerReadyErr where
  | parseGroupVersionFailed : String → OwnerReadyErr
  | fetchFailed : String → OwnerReadyErr
deriving DecidableEq, Repr

/-- The per-condition check of the conditions loop: the entry must be a map
whose `type` is `"Ready"` and whose `status` is `"True"` (lookup failures
leave the Go zero string, so non-map entries and missing keys never match). -/
def condIsReadyTrue (c : UVal) : Bool :=
  match c with
  | .obj m => (NestedString m ["type"]).val == "Ready" && (NestedString m ["status"]).val == "True"
  | _ => false

/-- Embeds `IsOwnerServiceReady(ctx, h, obj)`; the client is the explicit `fetch`
parameter, called with the owner's group/version/kind, the child's
namespace and the owner's name. Mirrors clusterrole.go lines 222-326:
controller-owner scan, APIVersion parse, fetch, `status.conditions` scan
for Ready/True, then generation fencing. -/
def IsOwnerServiceReady (fetch : GVK → String → String → FetchResult)
    (obj : ChildObj) : Bool × Option OwnerReadyErr :=
  match obj.ownerReferences.find? (fun o => o.controller == some true) with
  | none => (true, none)
  | some ownerRef =>
    match ParseGroupVersion ownerRef.apiVersion with
    | .error e => (false, some (.parseGroupVersionFailed e))
    | .ok gv =>
      match fetch ⟨gv.group, gv.version, ownerRef.kind⟩ obj.namespace_ ownerRef.name with
      | .notFound => (true, none)
      | .err e => (false, some (.fetchFailed e))
      | .ok owner =>
        let conds := NestedSlice owner ["status", "conditions"]
        if conds.err || !conds.found then (false, none)
        else
          let isReady := conds.val.any condIsReadyTrue
          if !isReady then (false, none)
          else
            let gen := NestedInt64 owner ["metadata", "generation"]
            if gen.err || !gen.found then (false, none)
            else
              let obsGen := NestedInt64 owner ["status", "observedGeneration"]
              if obsGen.err || !obsGen.found then (false, none)
              else if obsGen.val ≠ gen.val then (false, none)
              else (true, none)

/-- Claim C4: before inspecting any owner status, `IsOwnerServiceReady`
returns `(true, nil)` when no owner reference has `controller == true`;
returns `(false, err)` with a non-nil error when the controller owner's
apiVersion fails to parse; returns `(true, nil)` when the owner fetch
reports not-found; and returns `(false, err)` with a non-nil error on any
other fetch failure. -/
theorem IsOwnerServiceReady_prefetch_behaviour :
    (∀ (fetch : GVK → String → String → FetchResult) (obj : ChildObj),
      obj.ownerReferences.find? (fun o => o.controller == some true) = none →
      IsOwnerServiceReady fetch obj = (true, none))
    ∧ (∀ (fetch : GVK → String → String → FetchResult) (obj : ChildObj)
        (r : OwnerReference) (e : String),
      obj.ownerReferences.find? (fun o => o.controller == some true) = some r →
      ParseGroupVersion r.apiVersion = .error e →
      IsOwnerServiceReady fetch obj = (false, some (.parseGroupVersionFailed e)))
    ∧ (∀ (fetch : GVK → String → String → FetchResult) (obj : ChildObj)
        (r : OwnerReference) (gv : GroupVersion),
      obj.ownerReferences.find? (fun o => o.controller == some true) = some r →
      ParseGroupVersion r.apiVersion = .ok gv →
      (∀ k ns nm, fetch k ns nm = .notFound) →
      IsOwnerServiceReady fetch obj = (true, none))
    ∧ (∀ (fetch : GVK → String → String → FetchResult) (obj : ChildObj)
        (r : OwnerReference) (gv : GroupVersion) (e : String),
      obj.ownerReferences.find? (fun o => o.controller == some true) = some r →
      ParseGroupVersion r.apiVersion = .ok gv →
      (∀ k ns nm, fetch k ns nm = .err e) →
      IsOwnerServiceReady fetch obj = (false, some (.fetchFailed e))) := by
  refine ⟨?_, ?_, ?_, ?_⟩
  · intro fetch obj h
    simp only [IsOwnerServiceReady, h]
  · intro fetch obj r e h1 h2
    simp only [IsOwnerServiceReady, h1, h2]
  · intro fetch obj r gv h1 h2 h3
    simp only [IsOwnerServiceReady, h1, h2, h3]
  · intro fetch obj r gv e h1 h2 h3
    simp only [IsOwnerServiceReady, h1, h2, h3]

/-- Witness for C4: concrete instances of all four branches. -/
theorem IsOwnerServiceReady_prefetch_behaviour_witness :
    IsOwnerServiceReady (fun _ _ _ => .notFound) ⟨"ns", []⟩ = (true, none)
    ∧ IsOwnerServiceReady (fun _ _ _ => .notFound)
        ⟨"ns", [⟨"a/b/c", "Kind", "o", "u1", some true⟩]⟩
      = (false, some (.parseGroupVersionFailed ("unexpected GroupVersion string: " ++ "a/b/c")))
    ∧ IsOwnerServiceReady (fun _ _ _ => .notFound)
        ⟨"ns", [⟨"v1", "Kind", "o", "u1", some true⟩]⟩ = (true, none)
    ∧ IsOwnerServiceReady (fun _ _ _ => .err "boom")
        ⟨"ns", [⟨"v1", "Kind", "o", "u1", some true⟩]⟩
      = (false, some (.fetchFailed "boom")) := by
  refine ⟨?_, ?_, ?_, ?_⟩
  · exact IsOwnerServiceReady_prefetch_behaviour.1 _ _ rfl
  · exact IsOwnerServiceReady_prefetch_behaviour.2.1 _ _
      ⟨"a/b/c", "Kind", "o", "u1", some true⟩ _ rfl rfl
  · exact IsOwnerServiceReady_prefetch_behaviour.2.2.1 _ _
      ⟨"v1", "Kind", "o", "u1", some true⟩ ⟨"", "v1"⟩ rfl rfl (fun _ _ _ => rfl)
  · exact IsOwnerServiceReady_prefetch_behaviour.2.2.2 _ _
      ⟨"v1", "Kind", "o", "u1", some true⟩ ⟨"", "v1"⟩ "boom" rfl rfl (fun _ _ _ => rfl)

/-- Claim C2: for a fetched owner whose `status.conditions` holds an entry
with `type == "Ready"` and `status == "True"`, and whose
`metadata.generation` and `status.observedGeneration` are both readable,
`IsOwnerServiceReady` returns `(true, nil)` exactly when
`observedGeneration` equals `generation`, and `(false, nil)` otherwise. -/
theorem IsOwnerServiceReady_generation_fencing
    (fetch : GVK → String → String → FetchResult) (obj : ChildObj)
    (r : OwnerReference) (gv : GroupVersion) (m : UObj)
    (cs : List UVal) (g og : Int)
    (h1 : obj.ownerReferences.find? (fun o => o.controller == some true) = some r)
    (h2 : ParseGroupVersion r.apiVersion = .ok gv)
    (h3 : ∀ k ns nm, fetch k ns nm = .ok m)
    (h4 : NestedSlice m ["status", "conditions"] = ⟨cs, true, false⟩)
    (h5 : cs.any condIsReadyTrue = true)
    (h6 : NestedInt64 m ["metadata", "generation"] = ⟨g, true, false⟩)
    (h7 : NestedInt64 m ["status", "observedGeneration"] = ⟨og, true, false⟩) :
    IsOwnerServiceReady fetch obj = (decide (og = g), none) := by
  simp only [IsOwnerServiceReady, h1, h2, h3, h4, h5, h6, h7]
  by_cases h : og = g <;> simp [h]

/-- The owner document used by the C2 witness: a Ready/True condition,
generation 3, observedGeneration 3. -/
def c2Owner : UObj :=
  [("metadata", .obj [("generation", .int 3)]),
   ("status", .obj
     [("observedGeneration", .int 3),
      ("conditions", .list
        [.obj [("type", .str "Ready"), ("status", .str "True")]])])]

/-- Witness for C2 at a concrete ready, reconciled owner. -/
theorem IsOwnerServiceReady_generation_fencing_witness :
    IsOwnerServiceReady (fun _ _ _ => .ok c2Owner)
      ⟨"ns", [⟨"v1", "Kind", "o", "u1", some true⟩]⟩ = (true, none) :=
  IsOwnerServiceReady_generation_fencing _ _
    ⟨"v1", "Kind", "o", "u1", some true⟩ ⟨"", "v1"⟩ c2Owner
    [.obj [("type", .str "Ready"), ("status", .str "True")]] 3 3
    rfl rfl (fun _ _ _ => rfl) rfl rfl rfl rfl

/-- Claim C3: for a fetched owner, `IsOwnerServiceReady` returns
`(false, nil)` — never an error — whenever `status.conditions` is absent or
unreadable, or no condition entry is Ready/True, or `metadata.generation`
or `status.observedGeneration` is absent or unreadable. -/
theorem IsOwnerServiceReady_waits_with_false_nil
    (fetch : GVK → String → String → FetchResult) (obj : ChildObj)
    (r : OwnerReference) (gv : GroupVersion) (m : UObj)
    (h1 : obj.ownerReferences.find? (fun o => o.controller == some true) = some r)
    (h2 : ParseGroupVersion r.apiVersion = .ok gv)
    (h3 : ∀ k ns nm, fetch k ns nm = .ok m)
    (hwait :
      (NestedSlice m ["status", "conditions"]).err = true
      ∨ (NestedSlice m ["status", "conditions"]).found = false
      ∨ (NestedSlice m ["status", "conditions"]).val.any condIsReadyTrue = false
      ∨ (NestedInt64 m ["metadata", "generation"]).err = true
      ∨ (NestedInt64 m ["metadata", "generation"]).found = false
      ∨ (NestedInt64 m ["status", "observedGeneration"]).err = true
      ∨ (NestedInt64 m ["status", "observedGeneration"]).found = false) :
    IsOwnerServiceReady fetch obj = (false, none) := by
  simp only [IsOwnerServiceReady, h1, h2, h3]
  rcases hs : NestedSlice m ["status", "conditions"] with ⟨cs, csf, cse⟩
  rcases hg : NestedInt64 m ["metadata", "generation"] with ⟨g, gf, ge⟩
  rcases ho : NestedInt64 m ["status", "observedGeneration"] with ⟨og, ogf, oge⟩
  rw [hs, hg, ho] at hwait
  cases cse <;> cases csf <;> cases ge <;> cases gf <;> cases oge <;> cases ogf <;>
    cases hany : cs.any condIsReadyTrue <;>
    simp_all

/-- Witness for C3: a fetched owner lacking `status.conditions`
(e.g. a ConfigMap). -/
theorem IsOwnerServiceReady_waits_with_false_nil_witness :
    IsOwnerServiceReady (fun _ _ _ => .ok [("data", .obj [])])
      ⟨"ns", [⟨"v1", "ConfigMap", "o", "u1", some true⟩]⟩ = (false, none) :=
  IsOwnerServiceReady_waits_with_false_nil _ _
    ⟨"v1", "ConfigMap", "o", "u1", some true⟩ ⟨"", "v1"⟩ [("data", .obj [])]
    rfl rfl (fun _ _ _ => rfl) (Or.inr (Or.inl rfl))

/-! ## Owner-reference registry operations
(object package: CheckOwnerRefExist, PatchOwnerRef, EnsureOwnerRef) -/

/-- Go `slices.IndexFunc`: index of the first element satisfying `f`,
`-1` when none does. -/
def IndexFunc (f : α → Bool) : List α → Int
  | [] => -1
  | x :: xs =>
    if f x then 0
    else
      let i := IndexFunc f xs
      if i < 0 then -1 else i + 1

/-- Embeds `CheckOwnerRefExist(uid, ownerRefs)`: true when `slices.IndexFunc`
finds an entry whose UID equals `uid`. -/
def CheckOwnerRefExist (uid : String) (ownerRefs : List OwnerReference) : Bool :=
  if 0 ≤ IndexFunc (fun o => o.uid == uid) ownerRefs then true else false

/-- Lemma: `IndexFunc` is non-negative exactly when some element satisfies the
predicate. -/
theorem IndexFunc_nonneg_iff (f : α → Bool) (l : List α) :
    0 ≤ IndexFunc f l ↔ ∃ x ∈ l, f x = true := by
  induction l with
  | nil => simp [IndexFunc]
  | cons x xs ih =>
    by_cases hx : f x = true
    · simp [IndexFunc, hx]
    · simp only [IndexFunc, hx, if_false, List.mem_cons]
      constructor
      · intro h
        by_cases hneg : IndexFunc f xs < 0
        · rw [if_pos hneg] at h
          exact absurd h (by decide)
        · rw [if_neg hneg] at h
          rcases ih.mp (by omega) with ⟨y, hy, hfy⟩
          exact ⟨y, Or.inr hy, hfy⟩
      · rintro ⟨y, hy | hy, hfy⟩
        · exact absurd (hy ▸ hfy) hx
        · have h0 : 0 ≤ IndexFunc f xs := ih.mpr ⟨y, hy, hfy⟩
          have : ¬ IndexFunc f xs < 0 := by omega
          simp [this]
          omega

/-- Claim C5: `CheckOwnerRefExist` returns true iff some element of the
owner-reference list has the given UID (the function is pure by
construction; it only reads its arguments). -/
theorem CheckOwnerRefExist_iff (uid : String) (ownerRefs : List OwnerReference) :
    CheckOwnerRefExist uid ownerRefs = true ↔ ∃ r ∈ ownerRefs, r.uid = uid := by
  rw [CheckOwnerRefExist]
  by_cases h : 0 ≤ IndexFunc (fun o => o.uid == uid) ownerRefs
  · simpa [h] using (IndexFunc_nonneg_iff _ _).mp h
  · rw [if_neg h]
    simp only [Bool.false_eq_true, false_iff]
    rintro ⟨r, hr, hru⟩
    exact h ((IndexFunc_nonneg_iff _ _).mpr ⟨r, hr, by simp [hru]⟩)

/-- The owner argument of `EnsureOwnerRef`: its group/version/kind as
resolved through the scheme, plus name and UID. -/
structure OwnerInfo where
  group : String
  version : String
  kind : String
  name : String
  uid : String
deriving DecidableEq, Repr

/-- Embeds `schema.GroupVersion.String()`: `group/version`, or the bare version
when the group is empty. -/
def groupVersionString (gv : GroupVersion) : String :=
  if 0 < gv.group.length then gv.group ++ "/" ++ gv.version else gv.version

/-- The owner reference built by `controllerutil.SetOwnerReference`
(controller-runtime, external collaborator of `PatchOwnerRef`):
apiVersion and kind from the scheme's GVK, name and UID from the owner,
and no controller flag. -/
def mkOwnerRef (owner : OwnerInfo) : OwnerReference :=
  { apiVersion := groupVersionString ⟨owner.group, owner.version⟩
    kind := owner.kind
    name := owner.name
    uid := owner.uid
    controller := none }

/-- controller-runtime `referSameObject`: both apiVersions must parse, and
group, kind and name must agree. The UID is NOT compared. -/
def referSameObject (a b : OwnerReference) : Bool :=
  match ParseGroupVersion a.apiVersion, ParseGroupVersion b.apiVersion with
  | .ok agv, .ok bgv => agv.group == bgv.group && a.kind == b.kind && a.name == b.name
  | _, _ => false

/-- controller-runtime `indexOwnerRef`: index of the first reference to the
same object, `-1` when none. -/
def indexOwnerRef (ownerReferences : List OwnerReference) (ref : OwnerReference) : Int :=
  IndexFunc (fun r => referSameObject r ref) ownerReferences

/-- controller-runtime `upsertOwnerRef`: replace the first reference to the
same object, else append. -/
def upsertOwnerRef (ref : OwnerReference) (owners : List OwnerReference) :
    List OwnerReference :=
  let idx := indexOwnerRef owners ref
  if idx == -1 then owners ++ [ref] else owners.set idx.toNat ref

/-- Embeds `controllerutil.SetOwnerReference(owner, object, scheme)`, acting on
the object's owner-reference list. -/
def SetOwnerReference (owner : OwnerInfo) (owners : List OwnerReference) :
    List OwnerReference :=
  upsertOwnerRef (mkOwnerRef owner) owners

/-- Embeds `PatchOwnerRef` snapshots the object, applies `SetOwnerReference`, and
builds a `client.MergeFrom` patch of before vs after; the decoded patch
JSON has a `"metadata"` key exactly when the owner-reference list — the
only field the mutation touches — changed. -/
def patchOwnerRefHasMetadataDiff (owner : OwnerInfo) (owners : List OwnerReference) : Bool :=
  SetOwnerReference owner owners != owners

/-- What the external client's `Patch` call reported. -/
inductive PatchOutcome where
  | ok
  | conflict
  | notFound
  | otherError
deriving DecidableEq, Repr

/-- The error result of `EnsureOwnerRef`. -/
inductive EnsureOwnerRefErr where
  | conflictError
  | patchFailed
deriving DecidableEq, Repr

/-- Embeds `EnsureOwnerRef(ctx, h, owner, object)` (lines 193-217): build the
owner-ref patch, and submit it only when the diff has a `"metadata"` key;
a conflict from the client becomes a conflict error, not-found is
swallowed, and any other failure becomes a generic wrapped error. -/
def EnsureOwnerRef (owner : OwnerInfo) (owners : List OwnerReference)
    (patchOutcome : PatchOutcome) : Option EnsureOwnerRefErr :=
  if patchOwnerRefHasMetadataDiff owner owners then
    match patchOutcome with
    | .conflict => some .conflictError
    | .notFound => none
    | .otherError => some .patchFailed
    | .ok => none
  else none

/-! ### Supporting lemmas for the owner-reference registry -/

/-- Lemma: `IndexFunc` is `-1` or non-negative. -/
theorem IndexFunc_neg_or_nonneg (f : α → Bool) (l : List α) :
    IndexFunc f l = -1 ∨ 0 ≤ IndexFunc f l := by
  induction l with
  | nil => exact Or.inl rfl
  | cons x xs ih =>
    by_cases hx : f x = true
    · exact Or.inr (by simp [IndexFunc, hx])
    · simp only [IndexFunc, hx, if_false]
      by_cases hneg : IndexFunc f xs < 0
      · exact Or.inl (by simp [hneg])
      · refine Or.inr ?_
        rw [if_neg hneg]
        omega

/-- A non-negative `IndexFunc` result indexes an element satisfying the
predicate. -/
theorem IndexFunc_get (f : α → Bool) (l : List α) (h : 0 ≤ IndexFunc f l) :
    ∃ x, l.get? (IndexFunc f l).toNat = some x ∧ f x = true := by
  induction l with
  | nil => simp [IndexFunc] at h
  | cons x xs ih =>
    by_cases hx : f x = true
    · exact ⟨x, by simp [IndexFunc, hx], hx⟩
    · simp only [IndexFunc, hx, if_false] at h ⊢
      by_cases hneg : IndexFunc f xs < 0
      · rw [if_pos hneg] at h
        exact absurd h (by decide)
      · rw [if_neg hneg] at h ⊢
        rcases ih (by omega) with ⟨y, hy, hfy⟩
        refine ⟨y, ?_, hfy⟩
        have : (IndexFunc f xs + 1).toNat = (IndexFunc f xs).toNat + 1 := by omega
        simpa [this] using hy

/-- Setting an index to the value it already holds leaves the list
unchanged. -/
theorem list_set_get?_self (l : List α) (i : Nat) (x : α)
    (h : l.get? i = some x) : l.set i x = l := by
  induction l generalizing i with
  | nil => simp at h
  | cons y ys ih =>
    cases i with
    | zero => simp at h; simp [h]
    | succ j => simp only [List.get?] at h; simp [ih j h]

/-- A reference whose apiVersion parses refers to its own object. -/
theorem referSameObject_self (a : OwnerReference)
    (h : ∃ gv, ParseGroupVersion a.apiVersion = Except.ok gv) :
    referSameObject a a = true := by
  rcases h with ⟨gv, hgv⟩
  simp [referSameObject, hgv]

/-- The sanity precondition of the amended claim C6: every existing
reference to the owner's object (same group, kind, name) is exactly the
owner's reference, every existing reference bearing the owner's UID is the
owner's reference, and the listed UIDs are pairwise distinct. -/
def OwnerRefsWellFormed (owner : OwnerInfo) (owners : List OwnerReference) : Prop :=
  (∀ r ∈ owners, referSameObject r (mkOwnerRef owner) = true → r = mkOwnerRef owner)
  ∧ (∀ r ∈ owners, r.uid = owner.uid → r = mkOwnerRef owner)
  ∧ (owners.map (fun r => r.uid)).Nodup

/-- On a well-formed list, `SetOwnerReference` is: keep the list when the
owner's reference is already present, else append it. -/
theorem SetOwnerReference_eq (owner : OwnerInfo) (owners : List OwnerReference)
    (hok : ∃ gv, ParseGroupVersion (mkOwnerRef owner).apiVersion = Except.ok gv)
    (hwf : OwnerRefsWellFormed owner owners) :
    SetOwnerReference owner owners =
      if mkOwnerRef owner ∈ owners then owners else owners ++ [mkOwnerRef owner] := by
  have hself := referSameObject_self (mkOwnerRef owner) hok
  by_cases hmem : mkOwnerRef owner ∈ owners
  · rw [if_pos hmem]
    have h0 : 0 ≤ IndexFunc (fun r => referSameObject r (mkOwnerRef owner)) owners :=
      (IndexFunc_nonneg_iff _ _).mpr ⟨mkOwnerRef owner, hmem, hself⟩
    rcases IndexFunc_get _ _ h0 with ⟨x, hx, hfx⟩
    have hxmem : x ∈ owners := List.get?_mem hx
    have hxeq : x = mkOwnerRef owner := hwf.1 x hxmem hfx
    have hne : (indexOwnerRef owners (mkOwnerRef owner) == -1) = false := by
      simp only [indexOwnerRef, beq_eq_false_iff_ne, ne_eq]
      omega
    simp only [SetOwnerReference, upsertOwnerRef, hne, Bool.false_eq_true, if_false]
    exact list_set_get?_self _ _ _ (hxeq ▸ hx)
  · rw [if_neg hmem]
    have hnone : ¬ 0 ≤ IndexFunc (fun r => referSameObject r (mkOwnerRef owner)) owners := by
      intro h0
      rcases (IndexFunc_nonneg_iff _ _).mp h0 with ⟨r, hr, hfr⟩
      exact hmem ((hwf.1 r hr hfr) ▸ hr)
    have heq : (indexOwnerRef owners (mkOwnerRef owner) == -1) = true := by
      rcases IndexFunc_neg_or_nonneg (fun r => referSameObject r (mkOwnerRef owner)) owners with
        h | h
      · simp [indexOwnerRef, h]
      · exact absurd h hnone
    simp only [SetOwnerReference, upsertOwnerRef, heq, if_true]

/-- Lemma: `SetOwnerReference` preserves the well-formedness invariant. -/
theorem SetOwnerReference_preserves (owner : OwnerInfo) (owners : List OwnerReference)
    (hok : ∃ gv, ParseGroupVersion (mkOwnerRef owner).apiVersion = Except.ok gv)
    (hwf : OwnerRefsWellFormed owner owners) :
    OwnerRefsWellFormed owner (SetOwnerReference owner owners) := by
  rw [SetOwnerReference_eq owner owners hok hwf]
  by_cases hmem : mkOwnerRef owner ∈ owners
  · simpa [hmem] using hwf
  · rw [if_neg hmem]
    refine ⟨?_, ?_, ?_⟩
    · intro r hr hrs
      rcases List.mem_append.mp hr with h | h
      · exact hwf.1 r h hrs
      · simpa using h
    · intro r hr hru
      rcases List.mem_append.mp hr with h | h
      · exact hwf.2.1 r h hru
      · simpa using h
    · rw [List.map_append]
      refine List.Nodup.append hwf.2.2 (List.nodup_singleton _) ?_
      intro u hu hu2
      simp only [List.map_cons, List.map_nil, List.mem_singleton] at hu2
      rcases List.mem_map.mp hu with ⟨r, hr, hru⟩
      have : r = mkOwnerRef owner := hwf.2.1 r hr (by rw [hru, hu2]; rfl)
      exact hmem (this ▸ hr)

/-- Claim C6 counterexample. First conjunct pair: a target whose list holds
two references to the same (group, kind, name) — one stale UID, one being
exactly the owner's reference — already "contains the owner as an owner
reference", yet the computed diff is non-empty (the upsert rewrites the
first matching entry), so a patch IS submitted. Last conjunct: upserting
owner (ConfigMap "mine", uid-u) into a list holding a reference to
ConfigMap "other" with the same UID appends rather than replaces — matching
is by (group, kind, name), not UID — leaving two entries with the same UID
after a single `EnsureOwnerRef` call. -/
theorem EnsureOwnerRef_claimC6_counterexample :
    (mkOwnerRef ⟨"", "v1", "ConfigMap", "x", "uid-b"⟩ ∈
        ([⟨"v1", "ConfigMap", "x", "uid-a", none⟩,
          ⟨"v1", "ConfigMap", "x", "uid-b", none⟩] : List OwnerReference)
      ∧ patchOwnerRefHasMetadataDiff ⟨"", "v1", "ConfigMap", "x", "uid-b"⟩
          [⟨"v1", "ConfigMap", "x", "uid-a", none⟩,
           ⟨"v1", "ConfigMap", "x", "uid-b", none⟩] = true)
    ∧ (SetOwnerReference ⟨"", "v1", "ConfigMap", "mine", "uid-u"⟩
          [⟨"v1", "ConfigMap", "other", "uid-u", none⟩]).map (fun r => r.uid)
        = ["uid-u", "uid-u"] := by
  refine ⟨⟨?_, ?_⟩, ?_⟩
  · decide
  · decide
  · decide

/-- Claim C6, amended: provided the target's owner-reference list is
well-formed with respect to the owner — every reference to the owner's
(group, kind, name) is exactly the owner's reference, every reference with
the owner's UID is the owner's reference, and UIDs are pairwise distinct —
and the owner's apiVersion parses, then: if the target already contains the
owner as an owner reference the mutation is a no-op, the diff is empty and
no patch is submitted (`EnsureOwnerRef` returns nil for every client
outcome); and after any number of `EnsureOwnerRef` mutations with the same
owner the owner-reference list never holds two entries with the same UID. -/
theorem EnsureOwnerRef_idempotent_amended (owner : OwnerInfo) (owners : List OwnerReference)
    (hok : ∃ gv, ParseGroupVersion (mkOwnerRef owner).apiVersion = Except.ok gv)
    (hwf : OwnerRefsWellFormed owner owners) :
    (mkOwnerRef owner ∈ owners →
      SetOwnerReference owner owners = owners
      ∧ patchOwnerRefHasMetadataDiff owner owners = false
      ∧ ∀ po, EnsureOwnerRef owner owners po = none)
    ∧ ∀ n, ((((fun l => SetOwnerReference owner l)^[n]) owners).map (fun r => r.uid)).Nodup := by
  constructor
  · intro hmem
    have heq : SetOwnerReference owner owners = owners := by
      rw [SetOwnerReference_eq owner owners hok hwf, if_pos hmem]
    refine ⟨heq, ?_, ?_⟩
    · simp [patchOwnerRefHasMetadataDiff, heq]
    · intro po
      simp [EnsureOwnerRef, patchOwnerRefHasMetadataDiff, heq]
  · have main : ∀ n (l : List OwnerReference), OwnerRefsWellFormed owner l →
        OwnerRefsWellFormed owner (((fun l => SetOwnerReference owner l)^[n]) l) := by
      intro n
      induction n with
      | zero => intro l h; simpa using h
      | succ k ih =>
        intro l h
        rw [Function.iterate_succ_apply]
        exact ih _ (SetOwnerReference_preserves owner l hok h)
    intro n
    exact (main n owners hwf).2.2

/-- Witness for the amended C6 at a target already owning the reference. -/
theorem EnsureOwnerRef_idempotent_amended_witness :
    SetOwnerReference ⟨"", "v1", "ConfigMap", "x", "u1"⟩
        [mkOwnerRef ⟨"", "v1", "ConfigMap", "x", "u1"⟩]
      = [mkOwnerRef ⟨"", "v1", "ConfigMap", "x", "u1"⟩]
    ∧ EnsureOwnerRef ⟨"", "v1", "ConfigMap", "x", "u1"⟩
        [mkOwnerRef ⟨"", "v1", "ConfigMap", "x", "u1"⟩] .conflict = none := by
  have h := EnsureOwnerRef_idempotent_amended ⟨"", "v1", "ConfigMap", "x", "u1"⟩
    [mkOwnerRef ⟨"", "v1", "ConfigMap", "x", "u1"⟩]
    ⟨⟨"", "v1"⟩, rfl⟩ (by refine ⟨?_, ?_, ?_⟩ <;> decide)
  exact ⟨(h.1 (by decide)).1, (h.1 (by decide)).2.2 .conflict⟩

/-- Claim C7: when `EnsureOwnerRef` submits a patch (the diff is
non-empty), a client conflict yields the non-nil conflict error, a client
not-found is swallowed into a nil result, and any other client failure
yields the non-nil generic error; the two errors are distinguishable. -/
theorem EnsureOwnerRef_patch_error_handling (owner : OwnerInfo)
    (owners : List OwnerReference)
    (hdiff : patchOwnerRefHasMetadataDiff owner owners = true) :
    EnsureOwnerRef owner owners .conflict = some .conflictError
    ∧ EnsureOwnerRef owner owners .notFound = none
    ∧ EnsureOwnerRef owner owners .otherError = some .patchFailed
    ∧ EnsureOwnerRefErr.conflictError ≠ EnsureOwnerRefErr.patchFailed := by
  refine ⟨?_, ?_, ?_, by decide⟩ <;> simp [EnsureOwnerRef, hdiff]

/-- Witness for C7: adding a fresh owner to an empty list makes a
non-empty diff. -/
theorem EnsureOwnerRef_patch_error_handling_witness :
    patchOwnerRefHasMetadataDiff ⟨"", "v1", "ConfigMap", "x", "u1"⟩ [] = true
    ∧ EnsureOwnerRef ⟨"", "v1", "ConfigMap", "x", "u1"⟩ [] .notFound = none :=
  ⟨by decide,
   (EnsureOwnerRef_patch_error_handling ⟨"", "v1", "ConfigMap", "x", "u1"⟩ []
      (by decide)).2.1⟩

/-! ## ClusterRole CreateOrPatch / Delete outcome handling
(clusterrole.go lines 46-99) -/

/-- What `controllerutil.CreateOrPatch` (the client transaction) reported. -/
inductive TxnOutcome where
  | ok
  | notFound
  | otherError
deriving DecidableEq, Repr

/-- What the client's `Delete` call reported. -/
inductive DeleteOutcome where
  | ok
  | notFound
  | otherError
deriving DecidableEq, Repr

/-- Embeds `ctrl.Result`: only the requeue delay matters here; the timeout is the
duration stored in the `ClusterRole` wrapper. -/
structure CtrlResult where
  requeueAfter : Nat
deriving DecidableEq, Repr

/-- The wrapped error of the ClusterRole reconciler. -/
inductive ClusterRoleErr where
  | createOrPatchFailed
  | deleteFailed
deriving DecidableEq, Repr

/-- Embeds `ClusterRole.CreateOrPatch` error handling (lines 68-83): a not-found
from the transaction yields `Result{RequeueAfter: timeout}` with nil error;
any other failure yields an empty result and a wrapped error; success
yields an empty result and nil error. -/
def ClusterRoleCreateOrPatch (timeout : Nat) (txn : TxnOutcome) :
    CtrlResult × Option ClusterRoleErr :=
  match txn with
  | .notFound => (⟨timeout⟩, none)
  | .otherError => (⟨0⟩, some .createOrPatchFailed)
  | .ok => (⟨0⟩, none)

/-- Embeds `ClusterRole.Delete` (lines 87-99): an error that is not not-found is
wrapped and returned; not-found and success return nil. -/
def ClusterRoleDelete (outcome : DeleteOutcome) : Option ClusterRoleErr :=
  match outcome with
  | .ok => none
  | .notFound => none
  | .otherError => some .deleteFailed

/-- Claim C8: a not-found from the create-or-patch transaction yields
`RequeueAfter = timeout` with nil error; `Delete` returns nil on
not-found (idempotent delete) and a non-nil error on any other failure. -/
theorem ClusterRole_notFound_handling :
    (∀ timeout : Nat, ClusterRoleCreateOrPatch timeout .notFound = (⟨timeout⟩, none))
    ∧ ClusterRoleDelete .notFound = none
    ∧ ClusterRoleDelete .otherError = some .deleteFailed := by
  exact ⟨fun _ => rfl, rfl, rfl⟩

/-! ## Webhook deprecated-field validators (webhook/deprecated.go) -/

/-- Embeds `field.Path`, modelled as its segments; `Child` appends a segment and
`String()` joins with dots. -/
abbrev FieldPath := List String

/-- Embeds `field.Path.String()`. -/
def pathString (p : FieldPath) : String := String.intercalate "." p

/-- The `%q` verb of `fmt.Sprintf` on the identifiers at play: the value in
double quotes. -/
def quoted (s : String) : String := "\"" ++ s ++ "\""

/-- The kind of a `field.Error` (`field.Invalid` / `field.Forbidden`). -/
inductive FieldErrorType where
  | invalid
  | forbidden
deriving DecidableEq, Repr

/-- Embeds `field.Error`: its type, the offending field path, the bad value and
the detail message. -/
structure FieldError where
  errType : FieldErrorType
  path : FieldPath
  value : String
  detail : String
deriving DecidableEq, Repr

/-- Embeds `ValidateDeprecatedFieldConflict` (deprecated.go lines 52-112):
both empty → ok; only deprecated → warning; only new → ok; both same →
warning when `allowBothIfSame`, else invalid-error; both different →
invalid-error. -/
def ValidateDeprecatedFieldConflict (deprecatedValue newValue : String)
    (deprecatedFieldPath newFieldPath : FieldPath) (allowBothIfSame : Bool) :
    String × Option FieldError :=
  if deprecatedValue = "" ∧ newValue = "" then ("", none)
  else if deprecatedValue ≠ "" ∧ newValue = "" then
    ("field " ++ quoted (pathString deprecatedFieldPath) ++ " is deprecated, please use "
       ++ quoted (pathString newFieldPath) ++ " instead", none)
  else if deprecatedValue = "" ∧ newValue ≠ "" then ("", none)
  else if deprecatedValue = newValue then
    if allowBothIfSame then
      ("both " ++ quoted (pathString deprecatedFieldPath) ++ " and "
         ++ quoted (pathString newFieldPath)
         ++ " are set with the same value. Please migrate to using only "
         ++ quoted (pathString newFieldPath) ++ " and clear "
         ++ quoted (pathString deprecatedFieldPath), none)
    else
      ("", some ⟨.invalid, deprecatedFieldPath, deprecatedValue,
        "cannot set both deprecated field " ++ quoted (pathString deprecatedFieldPath)
          ++ " and new field " ++ quoted (pathString newFieldPath) ++ ". Use "
          ++ quoted (pathString newFieldPath) ++ " only"⟩)
  else
    ("", some ⟨.invalid, deprecatedFieldPath, deprecatedValue,
      "cannot set both deprecated field " ++ quoted (pathString deprecatedFieldPath)
        ++ " and new field " ++ quoted (pathString newFieldPath)
        ++ " with different values (deprecated: " ++ quoted deprecatedValue
        ++ ", new: " ++ quoted newValue ++ "). Use "
        ++ quoted (pathString newFieldPath) ++ " only"⟩)

/-- A string starting with the literal `"field "` is non-empty. -/
theorem field_prefixed_ne_empty (rest : String) : ("field " ++ rest) ≠ "" := by
  intro h
  have h2 : ("field " ++ rest).length = ("" : String).length := by rw [h]
  rw [String.length_append] at h2
  have h3 : ("field " : String).length = 6 := rfl
  have h4 : ("" : String).length = 0 := rfl
  omega

/-- A string starting with the literal `"both "` is non-empty. -/
theorem both_prefixed_ne_empty (rest : String) : ("both " ++ rest) ≠ "" := by
  intro h
  have h2 : ("both " ++ rest).length = ("" : String).length := by rw [h]
  rw [String.length_append] at h2
  have h3 : ("both " : String).length = 5 := rfl
  have h4 : ("" : String).length = 0 := rfl
  omega

/-- Claim C9: for all values, `ValidateDeprecatedFieldConflict` returns
`("", nil)` when both values are empty and when only the new value is set;
a non-empty warning and nil error when only the deprecated value is set;
when both hold the same value, a non-empty warning and nil error if
`allowBothIfSame`, and a non-nil error if not; and a non-nil error when
both are set to different values, for either flag value. -/
theorem ValidateDeprecatedFieldConflict_cases
    (d n : String) (dp np : FieldPath) :
    (d = "" → n = "" → ∀ allow,
      ValidateDeprecatedFieldConflict d n dp np allow = ("", none))
    ∧ (d = "" → n ≠ "" → ∀ allow,
      ValidateDeprecatedFieldConflict d n dp np allow = ("", none))
    ∧ (d ≠ "" → n = "" → ∀ allow,
      (ValidateDeprecatedFieldConflict d n dp np allow).1 ≠ ""
      ∧ (ValidateDeprecatedFieldConflict d n dp np allow).2 = none)
    ∧ (d ≠ "" → n ≠ "" → d = n →
      ((ValidateDeprecatedFieldConflict d n dp np true).1 ≠ ""
        ∧ (ValidateDeprecatedFieldConflict d n dp np true).2 = none)
      ∧ (ValidateDeprecatedFieldConflict d n dp np false).2 ≠ none)
    ∧ (d ≠ "" → n ≠ "" → d ≠ n → ∀ allow,
      (ValidateDeprecatedFieldConflict d n dp np allow).2 ≠ none) := by
  refine ⟨?_, ?_, ?_, ?_, ?_⟩
  · intro hd hn allow
    simp [ValidateDeprecatedFieldConflict, hd, hn]
  · intro hd hn allow
    simp [ValidateDeprecatedFieldConflict, hd, hn]
  · intro hd hn allow
    subst hn
    simp only [ValidateDeprecatedFieldConflict]
    split_ifs <;> try simp_all
    all_goals exact field_prefixed_ne_empty _
  · intro hd hn heq
    subst heq
    simp only [ValidateDeprecatedFieldConflict]
    split_ifs <;> try simp_all
    all_goals first
      | exact field_prefixed_ne_empty _
      | exact both_prefixed_ne_empty _
  · intro hd hn hne allow
    simp only [ValidateDeprecatedFieldConflict]
    split_ifs <;> try simp_all

/-- Witness for C9 at concrete inputs covering each case. -/
theorem ValidateDeprecatedFieldConflict_cases_witness :
    ValidateDeprecatedFieldConflict "" "" ["p"] ["q"] true = ("", none)
    ∧ ValidateDeprecatedFieldConflict "" "x" ["p"] ["q"] true = ("", none)
    ∧ ((ValidateDeprecatedFieldConflict "a" "" ["p"] ["q"] true).1 ≠ ""
        ∧ (ValidateDeprecatedFieldConflict "a" "" ["p"] ["q"] true).2 = none)
    ∧ ((ValidateDeprecatedFieldConflict "a" "a" ["p"] ["q"] true).1 ≠ ""
        ∧ (ValidateDeprecatedFieldConflict "a" "a" ["p"] ["q"] true).2 = none)
    ∧ (ValidateDeprecatedFieldConflict "a" "a" ["p"] ["q"] false).2 ≠ none
    ∧ (ValidateDeprecatedFieldConflict "a" "b" ["p"] ["q"] true).2 ≠ none := by
  refine ⟨?_, ?_, ?_, ?_, ?_, ?_⟩
  · exact (ValidateDeprecatedFieldConflict_cases "" "" ["p"] ["q"]).1 rfl rfl true
  · exact (ValidateDeprecatedFieldConflict_cases "" "x" ["p"] ["q"]).2.1 rfl (by decide) true
  · exact (ValidateDeprecatedFieldConflict_cases "a" "" ["p"] ["q"]).2.2.1 (by decide) rfl true
  · exact ((ValidateDeprecatedFieldConflict_cases "a" "a" ["p"] ["q"]).2.2.2.1
      (by decide) (by decide) rfl).1
  · exact ((ValidateDeprecatedFieldConflict_cases "a" "a" ["p"] ["q"]).2.2.2.1
      (by decide) (by decide) rfl).2
  · exact (ValidateDeprecatedFieldConflict_cases "a" "b" ["p"] ["q"]).2.2.2.2
      (by decide) (by decide) (by decide) true

/-- Dereference a Go `*string`, treating nil as the empty string. -/
def derefOrEmpty : Option String → String
  | none => ""
  | some s => s

/-- Embeds `ValidateDeprecatedFieldConflictPtr` (lines 168-185): dereference both
pointers and delegate. -/
def ValidateDeprecatedFieldConflictPtr (deprecatedValue newValue : Option String)
    (deprecatedFieldPath newFieldPath : FieldPath) (allowBothIfSame : Bool) :
    String × Option FieldError :=
  ValidateDeprecatedFieldConflict (derefOrEmpty deprecatedValue) (derefOrEmpty newValue)
    deprecatedFieldPath newFieldPath allowBothIfSame

/-- Embeds `webhook.DeprecatedField`: one deprecated-field mapping for CREATE
validation. -/
structure DeprecatedField where
  deprecatedFieldName : String
  newFieldPath : List String
  deprecatedValue : Option String
  newValue : Option String

/-- Embeds `ValidateDeprecatedFieldsCreate` (lines 248-271): for each mapping,
run the conflict check with `allowBothIfSame = true`, keep only the
non-empty warnings — and discard the error component. -/
def ValidateDeprecatedFieldsCreate (deprecatedFields : List DeprecatedField)
    (basePath : FieldPath) : List String :=
  deprecatedFields.foldl
    (fun allWarnings df =>
      let deprecatedPath := basePath ++ [df.deprecatedFieldName]
      let newPath := basePath ++ df.newFieldPath
      let res := ValidateDeprecatedFieldConflictPtr df.deprecatedValue df.newValue
        deprecatedPath newPath true
      if res.1 ≠ "" then allWarnings ++ [res.1] else allWarnings)
    []

/-- The warning component the CREATE validation computes for one mapping. -/
def createWarningOf (basePath : FieldPath) (df : DeprecatedField) : String :=
  (ValidateDeprecatedFieldConflictPtr df.deprecatedValue df.newValue
    (basePath ++ [df.deprecatedFieldName]) (basePath ++ df.newFieldPath) true).1

/-- Claim C10: `ValidateDeprecatedFieldsCreate` returns exactly the
non-empty warning components — the per-field error is discarded, so a
create whose deprecated field and replacement hold different non-empty
values (which the per-field check rejects with a non-nil error) passes
with no reported error and not even a warning. -/
theorem ValidateDeprecatedFieldsCreate_discards_errors :
    (∀ (deprecatedFields : List DeprecatedField) (basePath : FieldPath),
      ValidateDeprecatedFieldsCreate deprecatedFields basePath
        = (deprecatedFields.map (createWarningOf basePath)).filter (fun w => w != ""))
    ∧ (ValidateDeprecatedFieldConflictPtr (some "a") (some "b")
        ["spec", "old"] ["spec", "new"] true).2 ≠ none
    ∧ ValidateDeprecatedFieldsCreate
        [⟨"old", ["new"], some "a", some "b"⟩] ["spec"] = [] := by
  refine ⟨?_, ?_, ?_⟩
  · have aux : ∀ (dfs : List DeprecatedField) (basePath : FieldPath) (acc : List String),
        dfs.foldl
          (fun allWarnings df =>
            let deprecatedPath := basePath ++ [df.deprecatedFieldName]
            let newPath := basePath ++ df.newFieldPath
            let res := ValidateDeprecatedFieldConflictPtr df.deprecatedValue df.newValue
              deprecatedPath newPath true
            if res.1 ≠ "" then allWarnings ++ [res.1] else allWarnings)
          acc
        = acc ++ (dfs.map (createWarningOf basePath)).filter (fun w => w != "") := by
      intro dfs
      induction dfs with
      | nil => intro basePath acc; simp
      | cons df rest ih =>
        intro basePath acc
        simp only [List.foldl_cons, List.map_cons, List.filter_cons]
        by_cases h : createWarningOf basePath df = ""
        · rw [if_neg (by simp [createWarningOf] at h ⊢; exact h)]
          have hb : (createWarningOf basePath df != "") = false := by simp [h]
          rw [hb]
          simp only [ih, Bool.false_eq_true, if_false]
        · rw [if_pos (by simp [createWarningOf] at h ⊢; exact h)]
          have hb : (createWarningOf basePath df != "") = true := by simp [h]
          rw [hb]
          simp only [ih, createWarningOf]
          simp [List.append_assoc]
    intro deprecatedFields basePath
    simpa [ValidateDeprecatedFieldsCreate] using aux deprecatedFields basePath []
  · simp [ValidateDeprecatedFieldConflictPtr, derefOrEmpty, ValidateDeprecatedFieldConflict]
  · rfl

end LibCommon
